import Mathlib

/-!
# HealthKey protocol — shallow embedding

A shallow embedding of `programs/healthkey_protocol/src/lib.rs`, an Anchor
program with two instructions:

* `initialize_user_profile(arweave_hash, goal)` — creates a `UserProfile`
  record at the program-derived address seeded by
  `[b"user_profile", authority.key()]` (`init`, `payer = authority`,
  `space = 8 + 32 + 4 + 100 + 4 + 100 + 8`) and sets its four fields;
* `reward_user(amount)` — transfers `amount` of the vault mint from the
  vault's associated token account (owned by the PDA derived from seeds
  `[b"vault"]`) to the signer's associated token account, creating the
  latter on demand (`init_if_needed`), after `require!(amount > 0)`.

The validation Anchor generates from the `#[derive(Accounts)]` structs runs
before the instruction body, in two phases: first every non-`init` account
is deserialized in field order (`Account<Mint>`, `Signer`,
`Account<TokenAccount>` failures surface here), then the declared
constraints (seeds re-derivation, `init`/`init_if_needed`,
associated-token bindings) run in field order.  The hosting runtime's
collaborator services (deterministic PDA derivation, account allocation,
the SPL-token `transfer` primitive, and invocation-level atomicity) are
modelled explicitly below, following the declarations in the source and the
runtime's documented behaviour.

Machine integers: token amounts are `u64` in the source; they are modelled
as `Nat` together with the explicit bound `2 ^ 64`, and the SPL token
program's checked arithmetic (`checked_sub` underflow ⇒ insufficient funds,
`checked_add` overflow ⇒ error) is reproduced.  Failure is modelled with
`Except`: an instruction that returns an error commits nothing (the runtime
rolls the whole invocation back), which `applyReward` / `applyInitialize`
make explicit.
-/

namespace Healthkey

/-- Byte strings (Rust `String` values are serialized by Borsh as raw bytes
with a 4-byte length prefix). -/
abbrev Bytes := List Nat

/-- Addresses on the ledger.  `key k` is an ordinary keypair address
(possessing a private key); `pda0`/`pda1` are program-derived addresses
(tag seed, optional extra address seed, bump), which have no private key;
`ata owner mint` is the deterministic associated-token-account address
derived from an owner and a mint — the address class used by the
`associated_token::…` constraints in `RewardUser`. -/
inductive Address where
  | key (k : Nat)
  | pda0 (programId : Nat) (tag : String) (bump : Nat)
  | pda1 (programId : Nat) (tag : String) (extra : Address) (bump : Nat)
  | ata (owner : Address) (mint : Address)
deriving DecidableEq, Repr

/-- The deployed program id (`declare_id!` in the source); its exact value
is irrelevant to every property proved here, only its identity matters. -/
def healthkeyProgramId : Nat := 0

/-- Canonical bump discriminant returned by the runtime's derivation for the
`"vault"` tag (the runtime guarantees determinism of `(address, bump)`). -/
def vaultBump : Nat := 254

/-- Canonical bump for the `"user_profile"` derivations. -/
def userProfileBump : Nat := 253

/-- The vault-authority PDA: re-derivation of `seeds = [b"vault"], bump`
(field `vault_authority` of `RewardUser`). -/
def vaultAuthorityAddress : Address :=
  Address.pda0 healthkeyProgramId "vault" vaultBump

/-- The profile PDA for an authority:
`seeds = [b"user_profile", authority.key().as_ref()], bump`
(field `user_profile` of `InitializeUserProfile`). -/
def userProfileAddress (authority : Address) : Address :=
  Address.pda1 healthkeyProgramId "user_profile" authority userProfileBump

/-- `pub struct UserProfile` (the `#[account]` record): `authority: Pubkey`,
`arweave_hash: String`, `goal: String`, `created_at: i64`. -/
structure UserProfile where
  authority : Address
  arweave_hash : Bytes
  goal : Bytes
  created_at : Int
deriving DecidableEq, Repr

/-- An SPL token account: its mint, its owner (authority) and its `u64`
balance. -/
structure TokenAccountState where
  mint : Address
  owner : Address
  amount : Nat
deriving DecidableEq, Repr

/-- An SPL mint account; only its recorded total supply is relevant here. -/
structure MintState where
  supply : Nat
deriving DecidableEq, Repr

/-- Ledger state touched by the program: `UserProfile` records, SPL token
accounts and SPL mints, each keyed by address. -/
structure Chain where
  profiles : Address → Option UserProfile
  tokenAccounts : Address → Option TokenAccountState
  mints : Address → Option MintState

/-- Point update of an address-keyed store. -/
def setStore {α : Type} (m : Address → Option α) (a : Address) (v : α) :
    Address → Option α :=
  fun x => if x = a then some v else m x

/-- Error conditions.  `invalidAmount` is `ErrorCode::InvalidAmount` from the
source; `derivationMismatch` is Anchor's `ConstraintSeeds` (supplied PDA
account does not match the re-derived address); `accountMismatch` covers the
remaining structural constraint failures (wrong associated-token address or
binding, missing account, missing signature); `alreadyExists` is the system
program's rejection of `init` on an already-allocated account;
`insufficientFunds` and `amountOverflow` come from the SPL token program's
checked balance arithmetic; `didNotSerialize` is Anchor's error when the
record does not fit the allocated `space` on serialization. -/
inductive HkError where
  | invalidAmount
  | derivationMismatch
  | accountMismatch
  | alreadyExists
  | insufficientFunds
  | amountOverflow
  | didNotSerialize
deriving DecidableEq, Repr

/-- `u64` modulus. -/
def U64MOD : Nat := 2 ^ 64

/-- The SPL token program's `transfer(from, to, amount)` authorized by
`authority` (here always presented via the vault PDA's seeds, which the
runtime has already matched against the account in `reward_user`'s
constraint pass): both accounts must exist, the source must be owned by the
authority, the mints must agree, the source balance must cover `amount`
(`checked_sub`, else insufficient funds) and the destination balance must
not overflow `u64` (`checked_add`).  A self-transfer leaves balances
unchanged. -/
def splTransfer (src dst authority : Address) (amount : Nat) (st : Chain) :
    Except HkError Chain :=
  match st.tokenAccounts src with
  | none => .error .accountMismatch
  | some s =>
    match st.tokenAccounts dst with
    | none => .error .accountMismatch
    | some d =>
      if s.owner ≠ authority then .error .accountMismatch
      else if s.mint ≠ d.mint then .error .accountMismatch
      else if s.amount < amount then .error .insufficientFunds
      else if U64MOD ≤ d.amount + amount then .error .amountOverflow
      else if src = dst then .ok st
      else
        let m1 := setStore st.tokenAccounts src { s with amount := s.amount - amount }
        let m2 := setStore m1 dst { d with amount := d.amount + amount }
        .ok { st with tokenAccounts := m2 }

/-- The accounts supplied to `reward_user` (struct `RewardUser`), in
declaration order: `vault_authority`, `mint`, `user`, `user_token_account`,
`vault_token_account` (the three program accounts carry no state). -/
structure RewardUserAccounts where
  vault_authority : Address
  mint : Address
  user : Address
  user_token_account : Address
  vault_token_account : Address

/-- Tail of the constraint phase: the `vault_token_account` constraints
`associated_token::mint = mint, associated_token::authority =
vault_authority` — the supplied address must be the associated-token
derivation for `(vault_authority, mint)` and the account (already
deserialized) must carry exactly that `(mint, owner)` binding.  Run on the
ledger `st1` as left by the `user_token_account` constraint. -/
def checkVault (accs : RewardUserAccounts) (st1 : Chain) :
    Except HkError Chain :=
  if accs.vault_token_account ≠
      Address.ata accs.vault_authority accs.mint then
    .error .accountMismatch
  else
    match st1.tokenAccounts accs.vault_token_account with
    | none => .error .accountMismatch
    | some vta =>
      if vta.mint ≠ accs.mint ∨ vta.owner ≠ accs.vault_authority then
        .error .accountMismatch
      else .ok st1

/-- The account-validation pass Anchor generates from `struct RewardUser`,
in its two phases.

Phase 1 — deserialization of every non-`init` field, in declaration order,
before any declared constraint runs: `vault_authority` is an
`UncheckedAccount` (nothing to check here); `mint : Account<Mint>` must
hold an initialized SPL mint (else `AccountNotInitialized`);
`user : Signer` must have signed the transaction (else `AccountNotSigner`;
`signers` is the runtime-verified signature set, and only keypair addresses
can sign); `user_token_account` is under `init_if_needed` and is not
deserialized in this phase; `vault_token_account : Account<TokenAccount>`
must exist as a token account (else `AccountNotInitialized`).  These
deserialization failures are all mapped to `accountMismatch`; what matters
below is that they preempt every constraint error of phase 2, including
the seeds check.

Phase 2 — declared constraints, in declaration order:
`vault_authority`'s `seeds = [b"vault"], bump` — the address is re-derived
and compared, and a mismatch aborts with `ConstraintSeeds`
(`derivationMismatch`); then `user_token_account`'s `init_if_needed,
payer = user, associated_token::mint = mint,
associated_token::authority = user` — the supplied address must equal the
associated-token derivation for `(user, mint)`; if no account exists there
one is created with exactly that `(mint, owner)` binding and zero balance,
otherwise the existing account's binding is checked; finally
`vault_token_account`'s associated-token constraints (`checkVault`).

The pass returns the ledger as mutated by the `init_if_needed` creation
(or an error), and the instruction body then runs on it. -/
def validateReward (accs : RewardUserAccounts) (signers : List Nat)
    (st : Chain) : Except HkError Chain :=
  if (st.mints accs.mint).isNone then
    .error .accountMismatch
  else if accs.user ∉ signers.map Address.key then
    .error .accountMismatch
  else if (st.tokenAccounts accs.vault_token_account).isNone then
    .error .accountMismatch
  else if accs.vault_authority ≠ vaultAuthorityAddress then
    .error .derivationMismatch
  else if accs.user_token_account ≠ Address.ata accs.user accs.mint then
    .error .accountMismatch
  else
    match st.tokenAccounts accs.user_token_account with
    | none =>
      let m0 := setStore st.tokenAccounts accs.user_token_account
        ⟨accs.mint, accs.user, 0⟩
      checkVault accs { st with tokenAccounts := m0 }
    | some uta =>
      if uta.mint ≠ accs.mint ∨ uta.owner ≠ accs.user then
        .error .accountMismatch
      else checkVault accs st

/-- The instruction body of `reward_user`:
`require!(amount > 0, ErrorCode::InvalidAmount)`, then the CPI
`token::transfer` from the vault account to the user account, signed with
the vault PDA's seeds (`[b"vault", bump]`; the runtime accepts the PDA as
signer because those seeds re-derive exactly the address checked in the
constraint pass). -/
def rewardBody (accs : RewardUserAccounts) (amount : Nat) (st1 : Chain) :
    Except HkError Chain :=
  if amount = 0 then .error .invalidAmount
  else
    splTransfer accs.vault_token_account accs.user_token_account
      accs.vault_authority amount st1

/-- `reward_user(ctx, amount)` as invoked: the runtime runs the constraint
pass generated from `struct RewardUser`, then the instruction body. -/
def reward_user (accs : RewardUserAccounts) (signers : List Nat)
    (amount : Nat) (st : Chain) : Except HkError Chain :=
  (validateReward accs signers st).bind (rewardBody accs amount)

/-- Invocation-level atomicity for `reward_user`: the runtime commits the
new state on success and rolls everything back on error (the pair carries
the resulting ledger state and the error, if any). -/
def applyReward (accs : RewardUserAccounts) (signers : List Nat)
    (amount : Nat) (st : Chain) : Chain × Option HkError :=
  match reward_user accs signers amount st with
  | .ok st' => (st', none)
  | .error e => (st, some e)

/-- The accounts supplied to `initialize_user_profile`
(struct `InitializeUserProfile`): `user_profile` and `authority`
(`system_program` carries no state). -/
structure InitializeUserProfileAccounts where
  user_profile : Address
  authority : Address

/-- `space = 8 + 32 + 4 + 100 + 4 + 100 + 8` from the `init` attribute:
8-byte discriminator, 32-byte pubkey, two strings pre-sized at a 4-byte
length prefix plus 100 bytes each, 8-byte timestamp. -/
def USER_PROFILE_SPACE : Nat := 8 + 32 + 4 + 100 + 4 + 100 + 8

/-- Borsh-serialized size of a `UserProfile` record: discriminator, pubkey,
each string as 4-byte length prefix plus its bytes, and the `i64`. -/
def profileSerializedSize (p : UserProfile) : Nat :=
  8 + 32 + (4 + p.arweave_hash.length) + (4 + p.goal.length) + 8

/-- `initialize_user_profile(ctx, arweave_hash, goal)` together with the
validation pass generated from `struct InitializeUserProfile`, in Anchor's
two phases.

Phase 1 — deserialization of the non-`init` fields, before any declared
constraint runs: `user_profile` is under `init` and is skipped here;
`authority : Signer, mut` must have signed the transaction (else
`AccountNotSigner`, mapped to `accountMismatch`).  A missing signature
therefore preempts both the seeds check and the allocation failure below.

Phase 2 — the `user_profile` constraints: `init, payer = authority,
space = …, seeds = [b"user_profile", authority.key().as_ref()], bump` —
the supplied address must equal the re-derived PDA (else `ConstraintSeeds`,
`derivationMismatch`); then the system program's `create_account` fails if
an account is already allocated there (`alreadyExists`); creation is paid
by `authority`.

The body then writes the four fields (`authority`, `arweave_hash`, `goal`,
`created_at = Clock::get()?.unix_timestamp`, the latter passed in here as
`now`), and on exit Anchor serializes the record into the allocated space;
a record larger than `space` fails to serialize (`didNotSerialize`) and the
invocation commits nothing. -/
def initialize_user_profile (accs : InitializeUserProfileAccounts)
    (signers : List Nat) (now : Int) (arweave_hash goal : Bytes)
    (st : Chain) : Except HkError Chain :=
  if accs.authority ∉ signers.map Address.key then
    .error .accountMismatch
  else if accs.user_profile ≠ userProfileAddress accs.authority then
    .error .derivationMismatch
  else if (st.profiles accs.user_profile).isSome then
    .error .alreadyExists
  else
    let profile : UserProfile :=
      { authority := accs.authority
        arweave_hash := arweave_hash
        goal := goal
        created_at := now }
    if USER_PROFILE_SPACE < profileSerializedSize profile then
      .error .didNotSerialize
    else
      let m0 := setStore st.profiles accs.user_profile profile
      .ok { st with profiles := m0 }

/-- Invocation-level atomicity for `initialize_user_profile`. -/
def applyInitialize (accs : InitializeUserProfileAccounts)
    (signers : List Nat) (now : Int) (arweave_hash goal : Bytes)
    (st : Chain) : Chain × Option HkError :=
  match initialize_user_profile accs signers now arweave_hash goal st with
  | .ok st' => (st', none)
  | .error e => (st, some e)

/-- Balance lookup, 0 for a nonexistent account. -/
def balanceOf (st : Chain) (a : Address) : Nat :=
  match st.tokenAccounts a with
  | some t => t.amount
  | none => 0

/-! ## Concrete fixtures

A small concrete ledger used by witnesses and counterexamples: one mint,
the vault's associated token account funded with 1000 units, and a user
(`keypair 1`) with no accounts yet. -/

/-- The vault's mint (an ordinary account address holding an SPL mint). -/
def healthMint : Address := Address.key 10

/-- A keypair user. -/
def alice : Nat := 1

/-- The vault's associated token account for the mint. -/
def vaultAta : Address := Address.ata vaultAuthorityAddress healthMint

/-- Alice's associated token account for the mint. -/
def aliceAta : Address := Address.ata (Address.key alice) healthMint

/-- Ledger with a vault holding 1000 units and nothing else. -/
def chain0 : Chain where
  profiles := fun _ => none
  tokenAccounts := fun a =>
    if a = vaultAta then some ⟨healthMint, vaultAuthorityAddress, 1000⟩ else none
  mints := fun a => if a = healthMint then some ⟨1000⟩ else none

/-- A well-formed `RewardUser` account set for Alice. -/
def aliceRewardAccs : RewardUserAccounts where
  vault_authority := vaultAuthorityAddress
  mint := healthMint
  user := Address.key alice
  user_token_account := aliceAta
  vault_token_account := vaultAta

/-- Same account set but with a substituted (non-derived) authority. -/
def spoofedRewardAccs : RewardUserAccounts :=
  { aliceRewardAccs with vault_authority := Address.key 99 }

/-- A well-formed `InitializeUserProfile` account set for Alice. -/
def aliceProfileAccs : InitializeUserProfileAccounts where
  user_profile := userProfileAddress (Address.key alice)
  authority := Address.key alice

/-! ## Run characterization of `reward_user`

`rewardOk` packages the success case: under the declared account
constraints, a signature by the user, a positive amount covered by the
vault balance, and the SPL supply bound (the combined balance of the two
accounts fits in `u64`, which the token program's supply invariant
guarantees on any reachable ledger), `reward_user` succeeds, debits the
vault account by `amount`, credits the user's associated token account by
`amount` (creating it when absent), and touches nothing else. -/

theorem rewardOk (accs : RewardUserAccounts) (signers : List Nat)
    (amount : Nat) (st : Chain) (vta : TokenAccountState)
    (hva : accs.vault_authority = vaultAuthorityAddress)
    (hmint : (st.mints accs.mint).isSome)
    (hsig : accs.user ∈ signers.map Address.key)
    (huta : accs.user_token_account = Address.ata accs.user accs.mint)
    (hvta : accs.vault_token_account = Address.ata accs.vault_authority accs.mint)
    (hv : st.tokenAccounts accs.vault_token_account = some vta)
    (hvmint : vta.mint = accs.mint) (hvown : vta.owner = accs.vault_authority)
    (hu : ∀ uta, st.tokenAccounts accs.user_token_account = some uta →
        uta.mint = accs.mint ∧ uta.owner = accs.user)
    (hamt : 0 < amount)
    (hfunds : amount ≤ vta.amount)
    (hsum : vta.amount + balanceOf st accs.user_token_account < U64MOD) :
    (applyReward accs signers amount st).2 = none
    ∧ (applyReward accs signers amount st).1.tokenAccounts
        accs.vault_token_account
        = some ⟨accs.mint, vaultAuthorityAddress, vta.amount - amount⟩
    ∧ (applyReward accs signers amount st).1.tokenAccounts
        accs.user_token_account
        = some ⟨accs.mint, accs.user,
            balanceOf st accs.user_token_account + amount⟩
    ∧ (∀ a, a ≠ accs.user_token_account → a ≠ accs.vault_token_account →
        (applyReward accs signers amount st).1.tokenAccounts a
          = st.tokenAccounts a)
    ∧ (applyReward accs signers amount st).1.mints = st.mints
    ∧ (applyReward accs signers amount st).1.profiles = st.profiles := by
  obtain ⟨m, hm⟩ := Option.isSome_iff_exists.mp hmint
  obtain ⟨k, hkmem, hk2⟩ := List.mem_map.mp hsig
  have hvta' : accs.vault_token_account
      = Address.ata vaultAuthorityAddress accs.mint := by rw [hvta, hva]
  have hne : Address.ata accs.user accs.mint
      ≠ Address.ata vaultAuthorityAddress accs.mint := by
    rw [← hk2]
    intro h
    injection h with h1 h2
    exact absurd h1 (by simp [vaultAuthorityAddress])
  rw [huta] at hu hsum
  rw [hvta'] at hv
  obtain ⟨vmint, vown, vamt⟩ := vta
  simp only at hvmint hvown
  subst hvmint hvown
  simp only at hfunds hsum
  rcases hcase : st.tokenAccounts (Address.ata accs.user accs.mint)
      with _ | ⟨umint, uown, uamt⟩
  · have hb : balanceOf st (Address.ata accs.user accs.mint) = 0 := by
      simp [balanceOf, hcase]
    rw [hb] at hsum
    have hov : ¬ (U64MOD ≤ amount) := by omega
    have hfl : ¬ (vamt < amount) := not_lt.mpr hfunds
    simp [applyReward, reward_user, validateReward, checkVault, rewardBody,
      Except.bind, splTransfer, setStore, balanceOf,
      hva, huta, hvta', hm, hsig, hcase, hv, hne, hne.symm, hov, hfl,
      Nat.pos_iff_ne_zero.mp hamt, hb]
    intro a ha hvb
    simp [ha, hvb]
  · obtain ⟨humint, huown⟩ := hu _ hcase
    simp only at humint huown
    subst humint huown
    have hb : balanceOf st (Address.ata accs.user accs.mint) = uamt := by
      simp [balanceOf, hcase]
    rw [hb] at hsum
    have hov : ¬ (U64MOD ≤ uamt + amount) := by omega
    have hfl : ¬ (vamt < amount) := not_lt.mpr hfunds
    simp [applyReward, reward_user, validateReward, checkVault, rewardBody,
      Except.bind, splTransfer, setStore, balanceOf,
      hva, huta, hvta', hm, hsig, hcase, hv, hne, hne.symm, hov, hfl,
      Nat.pos_iff_ne_zero.mp hamt, hb]
    intro a ha hvb
    simp [ha, hvb]

/-- Under the same account-validation hypotheses, `amount = 0` makes the
instruction body's `require!(amount > 0)` fire: the run ends in
`InvalidAmount`. -/
theorem rewardZero (accs : RewardUserAccounts) (signers : List Nat)
    (st : Chain) (vta : TokenAccountState)
    (hva : accs.vault_authority = vaultAuthorityAddress)
    (hmint : (st.mints accs.mint).isSome)
    (hsig : accs.user ∈ signers.map Address.key)
    (huta : accs.user_token_account = Address.ata accs.user accs.mint)
    (hvta : accs.vault_token_account = Address.ata accs.vault_authority accs.mint)
    (hv : st.tokenAccounts accs.vault_token_account = some vta)
    (hvmint : vta.mint = accs.mint) (hvown : vta.owner = accs.vault_authority)
    (hu : ∀ uta, st.tokenAccounts accs.user_token_account = some uta →
        uta.mint = accs.mint ∧ uta.owner = accs.user) :
    reward_user accs signers 0 st = .error .invalidAmount := by
  have hvta' : accs.vault_token_account
      = Address.ata vaultAuthorityAddress accs.mint := by rw [hvta, hva]
  obtain ⟨m, hm⟩ := Option.isSome_iff_exists.mp hmint
  obtain ⟨k, hkmem, hk2⟩ := List.mem_map.mp hsig
  have hne : Address.ata accs.user accs.mint
      ≠ Address.ata vaultAuthorityAddress accs.mint := by
    rw [← hk2]
    intro h
    injection h with h1 h2
    exact absurd h1 (by simp [vaultAuthorityAddress])
  rw [huta] at hu
  rw [hvta'] at hv
  obtain ⟨vmint, vown, vamt⟩ := vta
  simp only at hvmint hvown
  subst hvmint hvown
  rcases hcase : st.tokenAccounts (Address.ata accs.user accs.mint)
      with _ | ⟨umint, uown, uamt⟩
  · simp [reward_user, validateReward, checkVault, rewardBody, Except.bind,
      setStore, hva, huta, hvta', hm, hsig, hcase, hv, hne, hne.symm]
  · obtain ⟨humint, huown⟩ := hu _ hcase
    simp only at humint huown
    subst humint huown
    simp [reward_user, validateReward, checkVault, rewardBody, Except.bind,
      setStore, hva, huta, hvta', hm, hsig, hcase, hv, hne, hne.symm]

/-- Under the same account-validation hypotheses, an `amount` exceeding the
vault balance reaches the SPL transfer and fails there with insufficient
funds. -/
theorem rewardInsufficient (accs : RewardUserAccounts) (signers : List Nat)
    (amount : Nat) (st : Chain) (vta : TokenAccountState)
    (hva : accs.vault_authority = vaultAuthorityAddress)
    (hmint : (st.mints accs.mint).isSome)
    (hsig : accs.user ∈ signers.map Address.key)
    (huta : accs.user_token_account = Address.ata accs.user accs.mint)
    (hvta : accs.vault_token_account = Address.ata accs.vault_authority accs.mint)
    (hv : st.tokenAccounts accs.vault_token_account = some vta)
    (hvmint : vta.mint = accs.mint) (hvown : vta.owner = accs.vault_authority)
    (hu : ∀ uta, st.tokenAccounts accs.user_token_account = some uta →
        uta.mint = accs.mint ∧ uta.owner = accs.user)
    (hinsuff : vta.amount < amount) :
    reward_user accs signers amount st = .error .insufficientFunds := by
  have hvta' : accs.vault_token_account
      = Address.ata vaultAuthorityAddress accs.mint := by rw [hvta, hva]
  obtain ⟨m, hm⟩ := Option.isSome_iff_exists.mp hmint
  obtain ⟨k, hkmem, hk2⟩ := List.mem_map.mp hsig
  have hne : Address.ata accs.user accs.mint
      ≠ Address.ata vaultAuthorityAddress accs.mint := by
    rw [← hk2]
    intro h
    injection h with h1 h2
    exact absurd h1 (by simp [vaultAuthorityAddress])
  have hnz : amount ≠ 0 := by omega
  rw [huta] at hu
  rw [hvta'] at hv
  obtain ⟨vmint, vown, vamt⟩ := vta
  simp only at hvmint hvown
  subst hvmint hvown
  simp only at hinsuff
  rcases hcase : st.tokenAccounts (Address.ata accs.user accs.mint)
      with _ | ⟨umint, uown, uamt⟩
  · simp [reward_user, validateReward, checkVault, rewardBody, Except.bind,
      splTransfer, setStore, hva, huta, hvta', hm, hsig, hcase, hv, hne,
      hne.symm, hnz, hinsuff]
  · obtain ⟨humint, huown⟩ := hu _ hcase
    simp only at humint huown
    subst humint huown
    simp [reward_user, validateReward, checkVault, rewardBody, Except.bind,
      splTransfer, setStore, hva, huta, hvta', hm, hsig, hcase, hv, hne,
      hne.symm, hnz, hinsuff]

/-- A positive amount never produces the `InvalidAmount` error, whatever the
accounts and ledger are: the `require!` is the only source of that code. -/
theorem checkVault_state (accs : RewardUserAccounts) (st1 st2 : Chain)
    (h : checkVault accs st1 = .ok st2) : st2 = st1 := by
  unfold checkVault at h
  repeat' split at h
  all_goals try exact Except.noConfusion h
  exact (Except.ok.inj h).symm

/-- The vault-account check never raises `InvalidAmount`. -/
theorem checkVault_not_invalid (accs : RewardUserAccounts) (st1 : Chain) :
    checkVault accs st1 ≠ Except.error HkError.invalidAmount := by
  intro h
  unfold checkVault at h
  repeat' split at h
  all_goals first
    | exact Except.noConfusion h
    | (injection h with he; exact HkError.noConfusion he)

/-- A successful constraint pass leaves profiles and mints untouched and
changes the token store at most at the user associated token account. -/
theorem validateReward_state (accs : RewardUserAccounts)
    (signers : List Nat) (st st1 : Chain)
    (h : validateReward accs signers st = .ok st1) :
    st1.profiles = st.profiles ∧ st1.mints = st.mints
    ∧ (∀ a, a ≠ accs.user_token_account →
        st1.tokenAccounts a = st.tokenAccounts a) := by
  unfold validateReward at h
  repeat' split at h
  all_goals try exact Except.noConfusion h
  all_goals have hst := checkVault_state _ _ _ h
  all_goals subst hst
  all_goals refine ⟨rfl, rfl, fun a ha => ?_⟩
  all_goals first
    | rfl
    | simp [setStore, ha]

/-- The constraint pass never raises `InvalidAmount`: that code has a single
source, the `require!` in the instruction body. -/
theorem validateReward_not_invalid (accs : RewardUserAccounts)
    (signers : List Nat) (st : Chain) :
    validateReward accs signers st ≠ Except.error HkError.invalidAmount := by
  intro h
  unfold validateReward at h
  repeat' split at h
  all_goals first
    | exact Except.noConfusion h
    | (injection h with he; exact HkError.noConfusion he)
    | exact checkVault_not_invalid _ _ h

/-- The SPL transfer never raises `InvalidAmount` either. -/
theorem splTransfer_not_invalid (src dst auth : Address) (amount : Nat)
    (st : Chain) :
    splTransfer src dst auth amount st
      ≠ Except.error HkError.invalidAmount := by
  intro h
  unfold splTransfer at h
  repeat' split at h
  all_goals first
    | exact Except.noConfusion h
    | (injection h with he; exact HkError.noConfusion he)

/-- A positive amount never produces the `InvalidAmount` error, whatever the
accounts and the ledger are. -/
theorem rewardPosNotInvalid (accs : RewardUserAccounts) (signers : List Nat)
    (amount : Nat) (st : Chain) (h : amount ≠ 0) :
    reward_user accs signers amount st
      ≠ Except.error HkError.invalidAmount := by
  intro hcontra
  unfold reward_user at hcontra
  cases hval : validateReward accs signers st with
  | error e =>
    rw [hval] at hcontra
    simp only [Except.bind] at hcontra
    injection hcontra with he
    subst he
    exact validateReward_not_invalid accs signers st hval
  | ok st1 =>
    rw [hval] at hcontra
    simp only [Except.bind] at hcontra
    unfold rewardBody at hcontra
    rw [if_neg h] at hcontra
    exact splTransfer_not_invalid _ _ _ _ _ hcontra

/-- A successful SPL transfer only rewrites token accounts. -/
theorem splTransfer_profiles (src dst auth : Address) (amount : Nat)
    (st st' : Chain) (h : splTransfer src dst auth amount st = .ok st') :
    st'.profiles = st.profiles ∧ st'.mints = st.mints := by
  unfold splTransfer at h
  repeat' split at h
  all_goals try exact Except.noConfusion h
  all_goals simp only [Except.ok.injEq] at h
  all_goals subst h
  all_goals exact ⟨rfl, rfl⟩

/-- A successful `reward_user` run only rewrites token accounts: the profile
store and the mint store of the resulting ledger are those of the input. -/
theorem reward_user_profiles (accs : RewardUserAccounts) (signers : List Nat)
    (amount : Nat) (st st' : Chain)
    (h : reward_user accs signers amount st = .ok st') :
    st'.profiles = st.profiles ∧ st'.mints = st.mints := by
  unfold reward_user at h
  cases hval : validateReward accs signers st with
  | error e =>
    rw [hval] at h
    simp only [Except.bind] at h
    exact Except.noConfusion h
  | ok st1 =>
    rw [hval] at h
    simp only [Except.bind] at h
    obtain ⟨hp1, hm1, _⟩ := validateReward_state _ _ _ _ hval
    unfold rewardBody at h
    split at h
    · exact Except.noConfusion h
    · obtain ⟨hp2, hm2⟩ := splTransfer_profiles _ _ _ _ _ _ h
      exact ⟨hp2.trans hp1, hm2.trans hm1⟩

/-- The vault-account check reads and writes no profile record. -/
theorem checkVault_set_profiles (accs : RewardUserAccounts) (st1 : Chain)
    (p : Address → Option UserProfile) :
    checkVault accs { st1 with profiles := p }
      = Except.map (fun s => { s with profiles := p })
          (checkVault accs st1) := by
  unfold checkVault
  dsimp only
  repeat' split
  all_goals rfl

/-- The constraint pass reads and writes no profile record. -/
theorem validateReward_set_profiles (accs : RewardUserAccounts)
    (signers : List Nat) (st : Chain) (p : Address → Option UserProfile) :
    validateReward accs signers { st with profiles := p }
      = Except.map (fun s1 => { s1 with profiles := p })
          (validateReward accs signers st) := by
  unfold validateReward
  dsimp only
  repeat' split
  all_goals first
    | rfl
    | exact checkVault_set_profiles accs { st with tokenAccounts := setStore st.tokenAccounts accs.user_token_account ⟨accs.mint, accs.user, 0⟩ } p
    | exact checkVault_set_profiles accs st p

/-- The SPL transfer reads and writes no profile record. -/
theorem splTransfer_set_profiles (src dst auth : Address) (amount : Nat)
    (st : Chain) (p : Address → Option UserProfile) :
    splTransfer src dst auth amount { st with profiles := p }
      = Except.map (fun s1 => { s1 with profiles := p })
          (splTransfer src dst auth amount st) := by
  unfold splTransfer
  dsimp only
  repeat' split
  all_goals rfl

/-- The instruction body reads and writes no profile record. -/
theorem rewardBody_set_profiles (accs : RewardUserAccounts) (amount : Nat)
    (st : Chain) (p : Address → Option UserProfile) :
    rewardBody accs amount { st with profiles := p }
      = Except.map (fun s1 => { s1 with profiles := p })
          (rewardBody accs amount st) := by
  unfold rewardBody
  split
  · rfl
  · exact splTransfer_set_profiles _ _ _ _ _ _

/-- `reward_user` neither reads nor writes the profile store: running it on
a ledger with the profile store replaced gives the same outcome, with the
replaced profile store carried through unchanged. -/
theorem reward_user_set_profiles (accs : RewardUserAccounts)
    (signers : List Nat) (amount : Nat) (st : Chain)
    (p : Address → Option UserProfile) :
    reward_user accs signers amount { st with profiles := p }
      = Except.map (fun st' => { st' with profiles := p })
          (reward_user accs signers amount st) := by
  unfold reward_user
  rw [validateReward_set_profiles]
  cases validateReward accs signers st with
  | error e => rfl
  | ok st1 =>
    simp only [Except.map, Except.bind]
    exact rewardBody_set_profiles accs amount st1 p

/-- Success characterization of `initialize_user_profile`: given the derived
profile address, a fresh slot there, the authority's signature and strings
fitting the allocated space, the call allocates the record with all four
fields. -/
theorem initOk (accs : InitializeUserProfileAccounts) (signers : List Nat)
    (now : Int) (hash goal : Bytes) (st : Chain)
    (haddr : accs.user_profile = userProfileAddress accs.authority)
    (hfresh : st.profiles accs.user_profile = none)
    (hsig : accs.authority ∈ signers.map Address.key)
    (hsize : hash.length + goal.length ≤ 200) :
    initialize_user_profile accs signers now hash goal st
      = .ok { st with profiles := setStore st.profiles accs.user_profile ⟨accs.authority, hash, goal, now⟩ } := by
  have hsz : ¬ (USER_PROFILE_SPACE
      < profileSerializedSize ⟨accs.authority, hash, goal, now⟩) := by
    simp [USER_PROFILE_SPACE, profileSerializedSize]
    omega
  rw [haddr] at hfresh
  simp [initialize_user_profile, haddr, hfresh, hsig, hsz]

/-- Inversion for a successful `initialize_user_profile`: the slot was
fresh, and no other profile slot is touched. -/
theorem initInv (accs : InitializeUserProfileAccounts) (signers : List Nat)
    (now : Int) (hash goal : Bytes) (st st' : Chain)
    (h : initialize_user_profile accs signers now hash goal st = .ok st') :
    st.profiles accs.user_profile = none
    ∧ (∀ b, b ≠ accs.user_profile → st'.profiles b = st.profiles b)
    ∧ st'.tokenAccounts = st.tokenAccounts
    ∧ st'.mints = st.mints := by
  unfold initialize_user_profile at h
  dsimp only at h
  repeat' split at h
  all_goals try exact Except.noConfusion h
  simp only [Except.ok.injEq] at h
  subst h
  refine ⟨?_, ?_, rfl, rfl⟩
  · simp_all [Option.not_isSome_iff_eq_none]
  · intro b hb
    simp [setStore, hb]

/-- Ledger whose vault account holds 100 units (the second scenario of the
spec). -/
def chain100 : Chain where
  profiles := fun _ => none
  tokenAccounts := fun a =>
    if a = vaultAta then some ⟨healthMint, vaultAuthorityAddress, 100⟩ else none
  mints := fun a => if a = healthMint then some ⟨100⟩ else none

/-- A profile record for Alice with empty strings, created at time 0. -/
def aliceProfile : UserProfile := ⟨Address.key alice, [], [], 0⟩

/-- `chain0` with Alice's profile record present. -/
def chainProf : Chain :=
  { chain0 with profiles := setStore (fun _ => none) (userProfileAddress (Address.key alice)) aliceProfile }

/-- A second keypair user. -/
def bob : Nat := 2

/-- A well-formed `InitializeUserProfile` account set for Bob. -/
def bobProfileAccs : InitializeUserProfileAccounts where
  user_profile := userProfileAddress (Address.key bob)
  authority := Address.key bob

/-- A 150-byte content pointer, exceeding the 100 bytes pre-allocated for
the `arweave_hash` field alone. -/
def longPointer : Bytes := List.replicate 150 97

/-! ## Claims -/

/-- C1 counterexample: a spoofed vault authority together with a missing
`user` signature fails with the `Signer` deserialization error
(`AccountNotSigner`, here `accountMismatch`), not with the derivation
mismatch — account deserialization precedes every declared constraint, so
the claimed error code does not hold regardless of the other inputs'
validity. -/
theorem c1_counterexample :
    spoofedRewardAccs.vault_authority ≠ vaultAuthorityAddress
    ∧ reward_user spoofedRewardAccs [] 250 chain0
      = Except.error HkError.accountMismatch
    ∧ reward_user spoofedRewardAccs [] 250 chain0
      ≠ Except.error HkError.derivationMismatch := by
  refine ⟨by decide, rfl, fun h => ?_⟩
  exact absurd
    (Except.error.inj ((rfl : reward_user spoofedRewardAccs [] 250 chain0
      = Except.error HkError.accountMismatch).symm.trans h))
    (by decide)

/-- C1 amended: whenever the non-`init` accounts deserialize — the mint is
an initialized SPL mint, the `user` signed, and the vault token account
exists — a `vault_authority` differing from the address re-derived from the
fixed `"vault"` seed (with its bump) makes `reward_user` fail with the
derivation-mismatch error (Anchor's `ConstraintSeeds`) before any transfer
and commits no state change, regardless of the validity of every remaining
input: the amount (including zero), the user token account address, and the
vault account's binding. -/
theorem c1_derivation_mismatch_rejects (accs : RewardUserAccounts)
    (signers : List Nat) (amount : Nat) (st : Chain)
    (hmint : (st.mints accs.mint).isSome)
    (hsig : accs.user ∈ signers.map Address.key)
    (hvex : (st.tokenAccounts accs.vault_token_account).isSome)
    (h : accs.vault_authority ≠ vaultAuthorityAddress) :
    reward_user accs signers amount st
      = Except.error HkError.derivationMismatch
    ∧ (applyReward accs signers amount st).1 = st := by
  have h1 : reward_user accs signers amount st
      = Except.error HkError.derivationMismatch := by
    unfold reward_user validateReward
    rw [if_neg (fun hc => Option.isSome_iff_ne_none.mp hmint
      (Option.isNone_iff_eq_none.mp hc))]
    rw [if_neg (not_not_intro hsig)]
    rw [if_neg (fun hc => Option.isSome_iff_ne_none.mp hvex
      (Option.isNone_iff_eq_none.mp hc))]
    rw [if_pos h]
    rfl
  exact ⟨h1, by simp [applyReward, h1]⟩

/-- C1 witness: a spoofed authority (keypair 99) on an otherwise fully valid
invocation — deserialization passes, the seeds check fires. -/
theorem c1_witness :
    spoofedRewardAccs.vault_authority ≠ vaultAuthorityAddress
    ∧ (reward_user spoofedRewardAccs [alice] 250 chain0
        = Except.error HkError.derivationMismatch
      ∧ (applyReward spoofedRewardAccs [alice] 250 chain0).1 = chain0) :=
  ⟨by decide,
    c1_derivation_mismatch_rejects spoofedRewardAccs [alice] 250 chain0
      (by decide) (by decide) (by decide) (by decide)⟩

/-- C2: under the declared account constraints, for every positive amount
covered by the vault balance (with the two balances' sum within `u64`, the
token program's supply invariant), `reward_user` succeeds, decreases the
vault token account by exactly `amount`, increases the user token account
by exactly `amount`, keeps the sum of the two balances, and leaves every
mint (hence the total supply) unchanged. -/
theorem c2_transfer_conserves_balances (accs : RewardUserAccounts)
    (signers : List Nat) (amount : Nat) (st : Chain)
    (vta : TokenAccountState)
    (hva : accs.vault_authority = vaultAuthorityAddress)
    (hmint : (st.mints accs.mint).isSome)
    (hsig : accs.user ∈ signers.map Address.key)
    (huta : accs.user_token_account = Address.ata accs.user accs.mint)
    (hvta : accs.vault_token_account = Address.ata accs.vault_authority accs.mint)
    (hv : st.tokenAccounts accs.vault_token_account = some vta)
    (hvmint : vta.mint = accs.mint) (hvown : vta.owner = accs.vault_authority)
    (hu : ∀ uta, st.tokenAccounts accs.user_token_account = some uta →
        uta.mint = accs.mint ∧ uta.owner = accs.user)
    (hamt : 0 < amount)
    (hfunds : amount ≤ vta.amount)
    (hsum : vta.amount + balanceOf st accs.user_token_account < U64MOD) :
    (applyReward accs signers amount st).2 = none
    ∧ balanceOf (applyReward accs signers amount st).1
        accs.vault_token_account = vta.amount - amount
    ∧ balanceOf (applyReward accs signers amount st).1
        accs.user_token_account
        = balanceOf st accs.user_token_account + amount
    ∧ balanceOf (applyReward accs signers amount st).1
        accs.vault_token_account
      + balanceOf (applyReward accs signers amount st).1
        accs.user_token_account
        = vta.amount + balanceOf st accs.user_token_account
    ∧ (applyReward accs signers amount st).1.mints = st.mints := by
  obtain ⟨h1, h2, h3, h4, h5, h6⟩ := rewardOk accs signers amount st vta
    hva hmint hsig huta hvta hv hvmint hvown hu hamt hfunds hsum
  refine ⟨h1, ?_, ?_, ?_, h5⟩
  · simp [balanceOf, h2]
  · simp [balanceOf, h3]
  · simp [balanceOf, h2, h3]
    omega

/-- C2 witness: the spec's first scenario, vault 1000, amount 250. -/
theorem c2_witness :
    0 < 250 ∧ (250 : Nat) ≤ 1000
    ∧ ((applyReward aliceRewardAccs [alice] 250 chain0).2 = none
      ∧ balanceOf (applyReward aliceRewardAccs [alice] 250 chain0).1
          aliceRewardAccs.vault_token_account = 1000 - 250
      ∧ balanceOf (applyReward aliceRewardAccs [alice] 250 chain0).1
          aliceRewardAccs.user_token_account
          = balanceOf chain0 aliceRewardAccs.user_token_account + 250
      ∧ balanceOf (applyReward aliceRewardAccs [alice] 250 chain0).1
          aliceRewardAccs.vault_token_account
        + balanceOf (applyReward aliceRewardAccs [alice] 250 chain0).1
          aliceRewardAccs.user_token_account
          = 1000 + balanceOf chain0 aliceRewardAccs.user_token_account
      ∧ (applyReward aliceRewardAccs [alice] 250 chain0).1.mints
          = chain0.mints) :=
  ⟨by decide, by decide,
    c2_transfer_conserves_balances aliceRewardAccs [alice] 250 chain0
      ⟨healthMint, vaultAuthorityAddress, 1000⟩
      (by decide) (by decide) (by decide) (by decide) (by decide) (by decide)
      (by decide) (by decide)
      (fun uta h => by
        rw [(by decide :
          chain0.tokenAccounts aliceRewardAccs.user_token_account
            = (none : Option TokenAccountState))] at h
        exact Option.noConfusion h)
      (by decide) (by decide) (by decide)⟩

/-- C3 counterexample: an `amount = 0` invocation whose vault-authority
account is not the derived PDA fails with the derivation mismatch, not with
`InvalidAmount` — the constraint pass precedes the instruction body's
amount check. -/
theorem c3_counterexample :
    reward_user spoofedRewardAccs [alice] 0 chain0
      = Except.error HkError.derivationMismatch
    ∧ reward_user spoofedRewardAccs [alice] 0 chain0
      ≠ Except.error HkError.invalidAmount := by
  refine ⟨rfl, fun h => ?_⟩
  exact absurd
    (Except.error.inj ((rfl : reward_user spoofedRewardAccs [alice] 0 chain0
      = Except.error HkError.derivationMismatch).symm.trans h))
    (by decide)

/-- C3 amended: on an invocation that passes the account-constraint pass,
`reward_user` fails with `InvalidAmount` exactly when `amount = 0` (so for
every positive amount the check passes), and an `amount = 0` invocation
commits no state change. -/
theorem c3_zero_amount_rejected (accs : RewardUserAccounts)
    (signers : List Nat) (amount : Nat) (st : Chain)
    (vta : TokenAccountState)
    (hva : accs.vault_authority = vaultAuthorityAddress)
    (hmint : (st.mints accs.mint).isSome)
    (hsig : accs.user ∈ signers.map Address.key)
    (huta : accs.user_token_account = Address.ata accs.user accs.mint)
    (hvta : accs.vault_token_account = Address.ata accs.vault_authority accs.mint)
    (hv : st.tokenAccounts accs.vault_token_account = some vta)
    (hvmint : vta.mint = accs.mint) (hvown : vta.owner = accs.vault_authority)
    (hu : ∀ uta, st.tokenAccounts accs.user_token_account = some uta →
        uta.mint = accs.mint ∧ uta.owner = accs.user) :
    (reward_user accs signers amount st = Except.error HkError.invalidAmount
      ↔ amount = 0)
    ∧ (applyReward accs signers 0 st).1 = st := by
  have h0 := rewardZero accs signers st vta
    hva hmint hsig huta hvta hv hvmint hvown hu
  refine ⟨⟨fun h => ?_, fun h => ?_⟩, by simp [applyReward, h0]⟩
  · by_contra hne
    exact rewardPosNotInvalid accs signers amount st hne h
  · subst h
    exact h0

/-- C3 witness: the fully valid account set at amount 0. -/
theorem c3_witness :
    aliceRewardAccs.vault_authority = vaultAuthorityAddress
    ∧ ((reward_user aliceRewardAccs [alice] 0 chain0
        = Except.error HkError.invalidAmount ↔ (0 : Nat) = 0)
      ∧ (applyReward aliceRewardAccs [alice] 0 chain0).1 = chain0) :=
  ⟨by decide,
    c3_zero_amount_rejected aliceRewardAccs [alice] 0 chain0
      ⟨healthMint, vaultAuthorityAddress, 1000⟩
      (by decide) (by decide) (by decide) (by decide) (by decide) (by decide)
      (by decide) (by decide)
      (fun uta h => by
        rw [(by decide :
          chain0.tokenAccounts aliceRewardAccs.user_token_account
            = (none : Option TokenAccountState))] at h
        exact Option.noConfusion h)⟩

/-- C4: for a fresh identity, `initialize_user_profile` succeeds at the
address derived from the `"user_profile"` tag and the identity and writes
the record; a second signed call for the same identity fails with
`AlreadyExists` (the storage layer rejects re-initialization of the
already-allocated record) and leaves the first record unmodified; profile
addresses of distinct authorities are distinct, so exactly one record can
exist per authority. -/
theorem c4_profile_created_once (accs : InitializeUserProfileAccounts)
    (signers signers2 : List Nat) (now now2 : Int)
    (hash goal hash2 goal2 : Bytes) (st : Chain) (b : Address)
    (haddr : accs.user_profile = userProfileAddress accs.authority)
    (hfresh : st.profiles accs.user_profile = none)
    (hsig : accs.authority ∈ signers.map Address.key)
    (hsig2 : accs.authority ∈ signers2.map Address.key)
    (hsize : hash.length + goal.length ≤ 200)
    (hb : b ≠ accs.authority) :
    (applyInitialize accs signers now hash goal st).2 = none
    ∧ (applyInitialize accs signers now hash goal st).1.profiles
        accs.user_profile = some ⟨accs.authority, hash, goal, now⟩
    ∧ initialize_user_profile accs signers2 now2 hash2 goal2
        (applyInitialize accs signers now hash goal st).1
        = Except.error HkError.alreadyExists
    ∧ (applyInitialize accs signers2 now2 hash2 goal2
        (applyInitialize accs signers now hash goal st).1).1.profiles
        accs.user_profile = some ⟨accs.authority, hash, goal, now⟩
    ∧ userProfileAddress b ≠ userProfileAddress accs.authority := by
  have h1 := initOk accs signers now hash goal st haddr hfresh hsig hsize
  have hA : (applyInitialize accs signers now hash goal st).1
      = { st with profiles := setStore st.profiles accs.user_profile ⟨accs.authority, hash, goal, now⟩ } := by
    simp [applyInitialize, h1]
  have hlook : (applyInitialize accs signers now hash goal st).1.profiles
      accs.user_profile = some ⟨accs.authority, hash, goal, now⟩ := by
    rw [hA]
    simp [setStore]
  have h2 : initialize_user_profile accs signers2 now2 hash2 goal2
      (applyInitialize accs signers now hash goal st).1
      = Except.error HkError.alreadyExists := by
    unfold initialize_user_profile
    rw [if_neg (not_not_intro hsig2)]
    rw [if_neg (not_not_intro haddr)]
    rw [if_pos (by rw [hlook]; rfl)]
  refine ⟨by simp [applyInitialize, h1], hlook, h2, ?_, ?_⟩
  · generalize hX : (applyInitialize accs signers now hash goal st).1 = X at hlook h2
    simp [applyInitialize, h2, hlook]
  · intro hcon
    simp only [userProfileAddress] at hcon
    injection hcon with e1 e2 e3 e4
    exact hb e3

/-- C4 witness: Alice registers once on the empty ledger; the repeat call
fails and her record survives; Bob derives a different address. -/
theorem c4_witness :
    chain0.profiles aliceProfileAccs.user_profile = none
    ∧ Address.key bob ≠ aliceProfileAccs.authority
    ∧ ((applyInitialize aliceProfileAccs [alice] 5 [1] [2] chain0).2 = none
      ∧ (applyInitialize aliceProfileAccs [alice] 5 [1] [2] chain0).1.profiles
          aliceProfileAccs.user_profile
          = some ⟨aliceProfileAccs.authority, [1], [2], 5⟩
      ∧ initialize_user_profile aliceProfileAccs [alice] 7 [9] []
          (applyInitialize aliceProfileAccs [alice] 5 [1] [2] chain0).1
          = Except.error HkError.alreadyExists
      ∧ (applyInitialize aliceProfileAccs [alice] 7 [9] []
          (applyInitialize aliceProfileAccs [alice] 5 [1] [2] chain0).1).1.profiles
          aliceProfileAccs.user_profile
          = some ⟨aliceProfileAccs.authority, [1], [2], 5⟩
      ∧ userProfileAddress (Address.key bob)
          ≠ userProfileAddress aliceProfileAccs.authority) :=
  ⟨by decide, by decide,
    c4_profile_created_once aliceProfileAccs [alice] [alice] 5 7 [1] [2] [9] []
      chain0 (Address.key bob)
      (by decide) (by decide) (by decide) (by decide) (by decide) (by decide)⟩

/-- C5 counterexample: with a non-derived vault authority, an invocation
whose amount (500) exceeds the supplied vault account's balance (100) fails
with the derivation mismatch, not with `InsufficientFunds` — the claim's
error code is not universal over all such invocations. -/
theorem c5_counterexample :
    chain100.tokenAccounts spoofedRewardAccs.vault_token_account
      = some ⟨healthMint, vaultAuthorityAddress, 100⟩
    ∧ (100 : Nat) < 500
    ∧ reward_user spoofedRewardAccs [alice] 500 chain100
      = Except.error HkError.derivationMismatch
    ∧ reward_user spoofedRewardAccs [alice] 500 chain100
      ≠ Except.error HkError.insufficientFunds := by
  refine ⟨by decide, by decide, rfl, fun h => ?_⟩
  exact absurd
    (Except.error.inj ((rfl : reward_user spoofedRewardAccs [alice] 500 chain100
      = Except.error HkError.derivationMismatch).symm.trans h))
    (by decide)

/-- C5 amended: on an invocation that passes the account-constraint pass,
an amount exceeding the vault balance fails with `InsufficientFunds` and
commits nothing, so the vault balance is unchanged; concretely, vault 1000
with amount 250 yields 750/250, and vault 100 with amount 500 fails leaving
the vault at 100. -/
theorem c5_insufficient_funds (accs : RewardUserAccounts)
    (signers : List Nat) (amount : Nat) (st : Chain)
    (vta : TokenAccountState)
    (hva : accs.vault_authority = vaultAuthorityAddress)
    (hmint : (st.mints accs.mint).isSome)
    (hsig : accs.user ∈ signers.map Address.key)
    (huta : accs.user_token_account = Address.ata accs.user accs.mint)
    (hvta : accs.vault_token_account = Address.ata accs.vault_authority accs.mint)
    (hv : st.tokenAccounts accs.vault_token_account = some vta)
    (hvmint : vta.mint = accs.mint) (hvown : vta.owner = accs.vault_authority)
    (hu : ∀ uta, st.tokenAccounts accs.user_token_account = some uta →
        uta.mint = accs.mint ∧ uta.owner = accs.user)
    (hinsuff : vta.amount < amount) :
    reward_user accs signers amount st
      = Except.error HkError.insufficientFunds
    ∧ (applyReward accs signers amount st).1 = st
    ∧ balanceOf (applyReward accs signers amount st).1
        accs.vault_token_account = vta.amount
    ∧ balanceOf (applyReward aliceRewardAccs [alice] 250 chain0).1 vaultAta = 750
    ∧ balanceOf (applyReward aliceRewardAccs [alice] 250 chain0).1 aliceAta = 250
    ∧ reward_user aliceRewardAccs [alice] 500 chain100
      = Except.error HkError.insufficientFunds
    ∧ balanceOf (applyReward aliceRewardAccs [alice] 500 chain100).1 vaultAta
      = 100 := by
  have h1 := rewardInsufficient accs signers amount st vta
    hva hmint hsig huta hvta hv hvmint hvown hu hinsuff
  refine ⟨h1, by simp [applyReward, h1], ?_, by decide, by decide, by rfl,
    by decide⟩
  simp [applyReward, h1, balanceOf, hv]

/-- C5 witness: the spec's failing scenario, vault 100 against amount 500. -/
theorem c5_witness :
    (100 : Nat) < 500
    ∧ (reward_user aliceRewardAccs [alice] 500 chain100
        = Except.error HkError.insufficientFunds
      ∧ (applyReward aliceRewardAccs [alice] 500 chain100).1 = chain100
      ∧ balanceOf (applyReward aliceRewardAccs [alice] 500 chain100).1
          aliceRewardAccs.vault_token_account = 100
      ∧ balanceOf (applyReward aliceRewardAccs [alice] 250 chain0).1 vaultAta = 750
      ∧ balanceOf (applyReward aliceRewardAccs [alice] 250 chain0).1 aliceAta = 250
      ∧ reward_user aliceRewardAccs [alice] 500 chain100
        = Except.error HkError.insufficientFunds
      ∧ balanceOf (applyReward aliceRewardAccs [alice] 500 chain100).1 vaultAta
        = 100) :=
  ⟨by decide,
    c5_insufficient_funds aliceRewardAccs [alice] 500 chain100
      ⟨healthMint, vaultAuthorityAddress, 100⟩
      (by decide) (by decide) (by decide) (by decide) (by decide) (by decide)
      (by decide) (by decide)
      (fun uta h => by
        rw [(by decide :
          chain100.tokenAccounts aliceRewardAccs.user_token_account
            = (none : Option TokenAccountState))] at h
        exact Option.noConfusion h)
      (by decide)⟩

/-- C6: when the recipient has no receiving token account, a successful
reward creates exactly one, at the deterministic associated-token address
for `(recipient, mint)`, bound to that pair — the existence of every other
account is untouched; a second reward for the same recipient and mint
reuses that same account (its balance accumulates) and creates nothing
anywhere. -/
theorem c6_lazy_creation_idempotent (accs : RewardUserAccounts)
    (signers signers2 : List Nat) (amount amount2 : Nat) (st : Chain)
    (vta : TokenAccountState) (a : Address)
    (hva : accs.vault_authority = vaultAuthorityAddress)
    (hmint : (st.mints accs.mint).isSome)
    (hsig : accs.user ∈ signers.map Address.key)
    (hsig2 : accs.user ∈ signers2.map Address.key)
    (huta : accs.user_token_account = Address.ata accs.user accs.mint)
    (hvta : accs.vault_token_account = Address.ata accs.vault_authority accs.mint)
    (hv : st.tokenAccounts accs.vault_token_account = some vta)
    (hvmint : vta.mint = accs.mint) (hvown : vta.owner = accs.vault_authority)
    (hnew : st.tokenAccounts accs.user_token_account = none)
    (hamt : 0 < amount) (hamt2 : 0 < amount2)
    (hfunds : amount + amount2 ≤ vta.amount)
    (hcap : vta.amount < U64MOD)
    (ha : a ≠ accs.user_token_account) :
    (applyReward accs signers amount st).2 = none
    ∧ (applyReward accs signers amount st).1.tokenAccounts
        accs.user_token_account = some ⟨accs.mint, accs.user, amount⟩
    ∧ ((applyReward accs signers amount st).1.tokenAccounts a).isSome
        = (st.tokenAccounts a).isSome
    ∧ (applyReward accs signers2 amount2
        (applyReward accs signers amount st).1).2 = none
    ∧ (applyReward accs signers2 amount2
        (applyReward accs signers amount st).1).1.tokenAccounts
        accs.user_token_account = some ⟨accs.mint, accs.user, amount + amount2⟩
    ∧ ((applyReward accs signers2 amount2
        (applyReward accs signers amount st).1).1.tokenAccounts a).isSome
        = ((applyReward accs signers amount st).1.tokenAccounts a).isSome := by
  have hu1 : ∀ uta, st.tokenAccounts accs.user_token_account = some uta →
      uta.mint = accs.mint ∧ uta.owner = accs.user := by
    intro uta h
    rw [hnew] at h
    exact Option.noConfusion h
  have hb0 : balanceOf st accs.user_token_account = 0 := by
    simp [balanceOf, hnew]
  obtain ⟨h1, h2, h3, h4, h5, h6⟩ := rewardOk accs signers amount st vta
    hva hmint hsig huta hvta hv hvmint hvown hu1 hamt (by omega)
    (by rw [hb0]; omega)
  rw [hb0] at h3
  set st1 := (applyReward accs signers amount st).1 with hst1
  have hmint2 : (st1.mints accs.mint).isSome := by
    rw [h5]
    exact hmint
  have hu2 : ∀ uta, st1.tokenAccounts accs.user_token_account = some uta →
      uta.mint = accs.mint ∧ uta.owner = accs.user := by
    intro uta h
    rw [h3] at h
    obtain rfl := Option.some.inj h
    exact ⟨rfl, rfl⟩
  have hb1 : balanceOf st1 accs.user_token_account = 0 + amount := by
    simp [balanceOf, h3]
  obtain ⟨g1, g2, g3, g4, g5, g6⟩ := rewardOk accs signers2 amount2 st1
    ⟨accs.mint, vaultAuthorityAddress, vta.amount - amount⟩
    hva hmint2 hsig2 huta hvta h2 rfl hva.symm hu2 hamt2
    (by simp only; omega) (by rw [hb1]; simp only; omega)
  refine ⟨h1, by rw [h3]; simp, ?_, g1, ?_, ?_⟩
  · by_cases hav : a = accs.vault_token_account
    · subst hav
      rw [h2, hv]
      rfl
    · rw [h4 a ha hav]
  · rw [g3, hb1]
    simp
  · by_cases hav : a = accs.vault_token_account
    · subst hav
      rw [g2, h2]
      rfl
    · rw [g4 a ha hav]

/-- C6 witness: Alice with no token account is rewarded 250 then 300 on the
1000-unit vault; her single associated token account accumulates, and an
unrelated address (keypair 55) gains no account in either call. -/
theorem c6_witness :
    chain0.tokenAccounts aliceRewardAccs.user_token_account = none
    ∧ ((applyReward aliceRewardAccs [alice] 250 chain0).2 = none
      ∧ (applyReward aliceRewardAccs [alice] 250 chain0).1.tokenAccounts
          aliceRewardAccs.user_token_account
          = some ⟨aliceRewardAccs.mint, aliceRewardAccs.user, 250⟩
      ∧ (((applyReward aliceRewardAccs [alice] 250 chain0).1.tokenAccounts
          (Address.key 55)).isSome
          = (chain0.tokenAccounts (Address.key 55)).isSome)
      ∧ (applyReward aliceRewardAccs [alice] 300
          (applyReward aliceRewardAccs [alice] 250 chain0).1).2 = none
      ∧ (applyReward aliceRewardAccs [alice] 300
          (applyReward aliceRewardAccs [alice] 250 chain0).1).1.tokenAccounts
          aliceRewardAccs.user_token_account
          = some ⟨aliceRewardAccs.mint, aliceRewardAccs.user, 250 + 300⟩
      ∧ (((applyReward aliceRewardAccs [alice] 300
          (applyReward aliceRewardAccs [alice] 250 chain0).1).1.tokenAccounts
          (Address.key 55)).isSome
          = ((applyReward aliceRewardAccs [alice] 250 chain0).1.tokenAccounts
          (Address.key 55)).isSome)) :=
  ⟨by decide,
    c6_lazy_creation_idempotent aliceRewardAccs [alice] [alice] 250 300 chain0
      ⟨healthMint, vaultAuthorityAddress, 1000⟩ (Address.key 55)
      (by decide) (by decide) (by decide) (by decide) (by decide) (by decide)
      (by decide) (by decide) (by decide) (by decide) (by decide) (by decide)
      (by decide) (by decide) (by decide)⟩

/-- C7: the recipient of `reward_user` is the transaction's signer — the
receiving associated token account is bound to the signing `user` — and the
hypotheses below (the declared constraints, a positive covered amount)
suffice for the transfer with no further authorization: any signer can draw
any covered amount from the vault into an account they own. -/
theorem c7_signer_is_recipient (accs : RewardUserAccounts)
    (signers : List Nat) (amount : Nat) (st : Chain)
    (vta : TokenAccountState)
    (hva : accs.vault_authority = vaultAuthorityAddress)
    (hmint : (st.mints accs.mint).isSome)
    (hsig : accs.user ∈ signers.map Address.key)
    (huta : accs.user_token_account = Address.ata accs.user accs.mint)
    (hvta : accs.vault_token_account = Address.ata accs.vault_authority accs.mint)
    (hv : st.tokenAccounts accs.vault_token_account = some vta)
    (hvmint : vta.mint = accs.mint) (hvown : vta.owner = accs.vault_authority)
    (hu : ∀ uta, st.tokenAccounts accs.user_token_account = some uta →
        uta.mint = accs.mint ∧ uta.owner = accs.user)
    (hamt : 0 < amount)
    (hfunds : amount ≤ vta.amount)
    (hsum : vta.amount + balanceOf st accs.user_token_account < U64MOD) :
    accs.user ∈ signers.map Address.key
    ∧ accs.user_token_account = Address.ata accs.user accs.mint
    ∧ (applyReward accs signers amount st).2 = none
    ∧ (applyReward accs signers amount st).1.tokenAccounts
        accs.user_token_account
        = some ⟨accs.mint, accs.user,
            balanceOf st accs.user_token_account + amount⟩
    ∧ balanceOf (applyReward accs signers amount st).1
        accs.vault_token_account = vta.amount - amount := by
  obtain ⟨h1, h2, h3, h4, h5, h6⟩ := rewardOk accs signers amount st vta
    hva hmint hsig huta hvta hv hvmint hvown hu hamt hfunds hsum
  exact ⟨hsig, huta, h1, h3, by simp [balanceOf, h2]⟩

/-- C7 witness: Alice, the sole signer, draws 999 of the 1000-unit vault
into her own associated token account. -/
theorem c7_witness :
    (0 : Nat) < 999
    ∧ (aliceRewardAccs.user ∈ [alice].map Address.key
      ∧ aliceRewardAccs.user_token_account
        = Address.ata aliceRewardAccs.user aliceRewardAccs.mint
      ∧ (applyReward aliceRewardAccs [alice] 999 chain0).2 = none
      ∧ (applyReward aliceRewardAccs [alice] 999 chain0).1.tokenAccounts
          aliceRewardAccs.user_token_account
          = some ⟨aliceRewardAccs.mint, aliceRewardAccs.user,
              balanceOf chain0 aliceRewardAccs.user_token_account + 999⟩
      ∧ balanceOf (applyReward aliceRewardAccs [alice] 999 chain0).1
          aliceRewardAccs.vault_token_account = 1000 - 999) :=
  ⟨by decide,
    c7_signer_is_recipient aliceRewardAccs [alice] 999 chain0
      ⟨healthMint, vaultAuthorityAddress, 1000⟩
      (by decide) (by decide) (by decide) (by decide) (by decide) (by decide)
      (by decide) (by decide)
      (fun uta h => by
        rw [(by decide :
          chain0.tokenAccounts aliceRewardAccs.user_token_account
            = (none : Option TokenAccountState))] at h
        exact Option.noConfusion h)
      (by decide) (by decide) (by decide)⟩

/-- C8: a successful `initialize_user_profile` writes the record with all
four fields — `authority` is the signing caller, `arweave_hash` and `goal`
are the supplied strings, `created_at` is the network clock reading — and
moves no tokens: the token-account store and the mint store are untouched. -/
theorem c8_profile_fields_set (accs : InitializeUserProfileAccounts)
    (signers : List Nat) (now : Int) (hash goal : Bytes) (st : Chain)
    (haddr : accs.user_profile = userProfileAddress accs.authority)
    (hfresh : st.profiles accs.user_profile = none)
    (hsig : accs.authority ∈ signers.map Address.key)
    (hsize : hash.length + goal.length ≤ 200) :
    (applyInitialize accs signers now hash goal st).2 = none
    ∧ accs.authority ∈ signers.map Address.key
    ∧ (applyInitialize accs signers now hash goal st).1.profiles
        accs.user_profile = some ⟨accs.authority, hash, goal, now⟩
    ∧ (applyInitialize accs signers now hash goal st).1.tokenAccounts
        = st.tokenAccounts
    ∧ (applyInitialize accs signers now hash goal st).1.mints = st.mints := by
  have h1 := initOk accs signers now hash goal st haddr hfresh hsig hsize
  refine ⟨by simp [applyInitialize, h1], hsig, ?_,
    by simp [applyInitialize, h1], by simp [applyInitialize, h1]⟩
  simp [applyInitialize, h1, setStore]

/-- C8 witness: Alice's profile on the funded ledger at time 42. -/
theorem c8_witness :
    chain0.profiles aliceProfileAccs.user_profile = none
    ∧ ((applyInitialize aliceProfileAccs [alice] 42 [7, 8] [9] chain0).2 = none
      ∧ aliceProfileAccs.authority ∈ [alice].map Address.key
      ∧ (applyInitialize aliceProfileAccs [alice] 42 [7, 8] [9] chain0).1.profiles
          aliceProfileAccs.user_profile
          = some ⟨aliceProfileAccs.authority, [7, 8], [9], 42⟩
      ∧ (applyInitialize aliceProfileAccs [alice] 42 [7, 8] [9] chain0).1.tokenAccounts
          = chain0.tokenAccounts
      ∧ (applyInitialize aliceProfileAccs [alice] 42 [7, 8] [9] chain0).1.mints
          = chain0.mints) :=
  ⟨by decide,
    c8_profile_fields_set aliceProfileAccs [alice] 42 [7, 8] [9] chain0
      (by decide) (by decide) (by decide) (by decide)⟩

set_option maxRecDepth 4000 in
/-- C9 counterexample: a 150-byte content pointer — exceeding the 100 bytes
the layout pre-allocates for that field — is accepted, and the record is
created holding the full oversized string: the claimed per-field rejection
does not exist. -/
theorem c9_counterexample :
    (100 : Nat) < longPointer.length
    ∧ (applyInitialize aliceProfileAccs [alice] 0 longPointer [] chain0).2
      = none
    ∧ (applyInitialize aliceProfileAccs [alice] 0 longPointer [] chain0).1.profiles
        (userProfileAddress (Address.key alice))
      = some ⟨Address.key alice, longPointer, [], 0⟩ := by
  refine ⟨by decide, by decide, by decide⟩

/-- C9 amended: the bound enforced is on the two strings combined — the
record must serialize into the allocated `space`, i.e.
`len(arweave_hash) + len(goal) ≤ 200` — not 100 bytes per field; an
oversized record fails on serialization (`didNotSerialize`), is never
truncated, and no record is created. -/
theorem c9_combined_capacity (accs : InitializeUserProfileAccounts)
    (signers : List Nat) (now : Int) (hash goal : Bytes) (st : Chain)
    (haddr : accs.user_profile = userProfileAddress accs.authority)
    (hfresh : st.profiles accs.user_profile = none)
    (hsig : accs.authority ∈ signers.map Address.key) :
    (initialize_user_profile accs signers now hash goal st
        = Except.error HkError.didNotSerialize
      ↔ 200 < hash.length + goal.length)
    ∧ (applyInitialize accs signers now hash goal st).1.profiles
        accs.user_profile
      = (if 200 < hash.length + goal.length then none
          else some ⟨accs.authority, hash, goal, now⟩) := by
  by_cases hsz : 200 < hash.length + goal.length
  · have hfresh2 : st.profiles (userProfileAddress accs.authority) = none := by
      rw [← haddr]
      exact hfresh
    have hc : USER_PROFILE_SPACE
        < profileSerializedSize ⟨accs.authority, hash, goal, now⟩ := by
      simp [USER_PROFILE_SPACE, profileSerializedSize]
      omega
    have hrun : initialize_user_profile accs signers now hash goal st
        = Except.error HkError.didNotSerialize := by
      simp [initialize_user_profile, haddr, hfresh2, hsig, hc]
    refine ⟨⟨fun _ => hsz, fun _ => hrun⟩, ?_⟩
    simp [applyInitialize, hrun, hfresh, hsz]
  · have hrun := initOk accs signers now hash goal st haddr hfresh hsig
      (by omega)
    refine ⟨⟨fun h => ?_, fun h => absurd h hsz⟩, ?_⟩
    · rw [hrun] at h
      exact Except.noConfusion h
    · simp [applyInitialize, hrun, hsz, setStore]

set_option maxRecDepth 4000 in
/-- C9 witness for the amended bound: two 120-byte strings (240 bytes
combined) are rejected with the serialization failure and no record
appears. -/
theorem c9_witness :
    chain0.profiles bobProfileAccs.user_profile = none
    ∧ ((initialize_user_profile bobProfileAccs [bob] 3
          (List.replicate 120 97) (List.replicate 120 98) chain0
        = Except.error HkError.didNotSerialize
      ↔ 200 < (List.replicate 120 97).length + (List.replicate 120 98).length)
      ∧ (applyInitialize bobProfileAccs [bob] 3
          (List.replicate 120 97) (List.replicate 120 98) chain0).1.profiles
          bobProfileAccs.user_profile
        = (if 200 < (List.replicate 120 97).length
              + (List.replicate 120 98).length then none
            else some ⟨bobProfileAccs.authority, List.replicate 120 97,
              List.replicate 120 98, 3⟩)) :=
  ⟨by decide,
    c9_combined_capacity bobProfileAccs [bob] 3
      (List.replicate 120 97) (List.replicate 120 98) chain0
      (by decide) (by decide) (by decide)⟩

/-- C10: `reward_user` neither reads nor writes any `UserProfile` record —
after any invocation (committed or rolled back) the profile store is the
input's, and replacing the whole profile store changes neither the outcome
nor the resulting token accounts — and `initialize_user_profile` never
touches an existing record, so no operation of this core mutates or deletes
a profile once created. -/
theorem c10_reward_frames_profiles (accs : RewardUserAccounts)
    (signers : List Nat) (amount : Nat) (st : Chain)
    (p : Address → Option UserProfile) (a : Address) (pr : UserProfile)
    (accs2 : InitializeUserProfileAccounts) (signers2 : List Nat)
    (now : Int) (hash goal : Bytes)
    (hpr : st.profiles a = some pr) :
    (applyReward accs signers amount st).1.profiles = st.profiles
    ∧ (applyReward accs signers amount { st with profiles := p }).2
        = (applyReward accs signers amount st).2
    ∧ (applyReward accs signers amount { st with profiles := p }).1.tokenAccounts
        = (applyReward accs signers amount st).1.tokenAccounts
    ∧ (applyInitialize accs2 signers2 now hash goal st).1.profiles a
        = some pr := by
  have hmap := reward_user_set_profiles accs signers amount st p
  refine ⟨?_, ?_, ?_, ?_⟩
  · cases hr : reward_user accs signers amount st with
    | error e => simp [applyReward, hr]
    | ok st2 =>
      have := (reward_user_profiles accs signers amount st st2 hr).1
      simp [applyReward, hr, this]
  · cases hr : reward_user accs signers amount st with
    | error e =>
      rw [hr] at hmap
      simp [applyReward, hmap, hr, Except.map]
    | ok st2 =>
      rw [hr] at hmap
      simp [applyReward, hmap, hr, Except.map]
  · cases hr : reward_user accs signers amount st with
    | error e =>
      rw [hr] at hmap
      simp [applyReward, hmap, hr, Except.map]
    | ok st2 =>
      rw [hr] at hmap
      simp [applyReward, hmap, hr, Except.map]
  · cases hi : initialize_user_profile accs2 signers2 now hash goal st with
    | error e => simp [applyInitialize, hi, hpr]
    | ok st2 =>
      obtain ⟨hfresh2, hframe, _, _⟩ := initInv accs2 signers2 now hash goal
        st st2 hi
      have hne : a ≠ accs2.user_profile := by
        intro hcon
        rw [hcon, hfresh2] at hpr
        exact Option.noConfusion hpr
      simp [applyInitialize, hi, hframe a hne, hpr]

/-- C10 witness: Alice's existing profile is untouched by a 250-unit reward
(also under a wiped profile store) and by Bob's profile creation. -/
theorem c10_witness :
    chainProf.profiles (userProfileAddress (Address.key alice))
      = some aliceProfile
    ∧ ((applyReward aliceRewardAccs [alice] 250 chainProf).1.profiles
        = chainProf.profiles
      ∧ (applyReward aliceRewardAccs [alice] 250
          { chainProf with profiles := fun _ => none }).2
        = (applyReward aliceRewardAccs [alice] 250 chainProf).2
      ∧ (applyReward aliceRewardAccs [alice] 250
          { chainProf with profiles := fun _ => none }).1.tokenAccounts
        = (applyReward aliceRewardAccs [alice] 250 chainProf).1.tokenAccounts
      ∧ (applyInitialize bobProfileAccs [bob] 1 [] [] chainProf).1.profiles
          (userProfileAddress (Address.key alice)) = some aliceProfile) :=
  ⟨by decide,
    c10_reward_frames_profiles aliceRewardAccs [alice] 250 chainProf
      (fun _ => none) (userProfileAddress (Address.key alice)) aliceProfile
      bobProfileAccs [bob] 1 [] []
      (by decide)⟩

end Healthkey
